import Mathlib

/-!
Verification development for the expense-processing server.

Shallow embedding of the repository's core code paths:
  * `src/connectors/expense_parser.py` — decode / extract / normalize / build
    pipeline (`decode_body`, `extract_fields`, `normalize_formats`,
    `build_parsed_expense`, `DefaultExpenseParser.parse`);
  * `src/connectors/sheets_connector.py` — `append_row` retry loop;
  * `src/connectors/slack_connector.py` — `send_notification` retry loop;
  * `src/workflow.py` — `ExpenseWorkflow.run` / `process_email`;
  * `src/connectors/gmail_connector.py` — `fetch_unread_receipts`.

Modelling conventions:
  * Python `float` amounts are modelled as exact decimals in `ℚ` (every
    amount produced by the parser's regex has at most two fraction digits).
  * Python exceptions are modelled with `Except`; an `.error` value is an
    uncaught exception at that point of the program.
  * Character classes (`\d`, `\s`, `str.strip`, `str.upper`, `str.lower`,
    `str.splitlines`) are modelled over the ASCII/Latin-1 ranges the code
    actually encounters; CPython additionally accepts some exotic Unicode
    members of these classes.
  * External network calls are oracles: functions supplied as parameters
    which return either a value or an error.
-/

/-- `RawEmail` (pydantic model, `src/connectors/interfaces.py`). -/
structure RawEmail where
  message_id : String
  subject : String
  body : String
deriving DecidableEq

/-- `ParsedExpense` (pydantic model, `src/connectors/interfaces.py`).
The declared field types are `str`, `str`, `float`, `str`,
`Optional[str]`, `Optional[str]`; pydantic enforces nothing beyond them. -/
structure ParsedExpense where
  date : String
  vendor : String
  amount : ℚ
  currency : String
  category : Option String
  description : Option String
deriving DecidableEq

/-- Python exceptions that the embedded code can raise. -/
inductive PyErr where
  | indexError
  | keyError
  | validationError
  | binasciiError
  | unicodeDecodeError
deriving DecidableEq

/-! ### base64: `base64.urlsafe_b64decode` (CPython, non-strict mode)

On a `str` argument `urlsafe_b64decode` first encodes it as ASCII
(`_bytes_from_decode_data` raises `ValueError` on any character at or
above U+0080), then translates `-`→`+` and `_`→`/`, then calls
`binascii.a2b_base64` in non-strict mode, which discards characters
outside the base64 alphabet, emits 3 bytes per full quad, stops early at
a completing pad sequence, and errors when the input ends mid-quad. -/

/-- The `-`→`+`, `_`→`/` translation done by `urlsafe_b64decode`. -/
def b64UrlTranslate (c : Char) : Char :=
  if c = '-' then '+' else if c = '_' then '/' else c

/-- Value of a standard-alphabet base64 character, `none` for non-members. -/
def b64Val (c : Char) : Option Nat :=
  if 65 ≤ c.toNat ∧ c.toNat ≤ 90 then some (c.toNat - 65)
  else if 97 ≤ c.toNat ∧ c.toNat ≤ 122 then some (c.toNat - 97 + 26)
  else if 48 ≤ c.toNat ∧ c.toNat ≤ 57 then some (c.toNat - 48 + 52)
  else if c = '+' then some 62
  else if c = '/' then some 63
  else none

/-- `binascii.a2b_base64` main loop (non-strict).  State: remaining input,
`quadPos` (0–3 data chars accumulated in the current quad), `acc` (their
6-bit values packed big-endian), `pads` (count of the current run of `=`),
`out` (output bytes, most recent first). -/
def a2bBase64Go : List Char → Nat → Nat → Nat → List Nat → Option (List Nat)
  | [], quadPos, _, _, out =>
      -- input exhausted: any partial quad is a padding error
      if quadPos = 0 then some out.reverse else none
  | c :: rest, quadPos, acc, pads, out =>
      if c = '=' then
        if 2 ≤ quadPos ∧ 4 ≤ quadPos + (pads + 1) then
          -- a completing pad sequence ends the decode; the rest is ignored
          if quadPos = 2 then some (out.reverse ++ [acc / 16])
          else some (out.reverse ++ [acc / 1024, acc / 4 % 256])
        else a2bBase64Go rest quadPos acc (pads + 1) out
      else
        match b64Val c with
        | none => a2bBase64Go rest quadPos acc pads out
        | some v =>
            let acc2 := acc * 64 + v
            if quadPos = 3 then
              a2bBase64Go rest 0 0 0 (acc2 % 256 :: acc2 / 256 % 256 :: acc2 / 65536 :: out)
            else a2bBase64Go rest (quadPos + 1) acc2 0 out

/-- Is every character of the string ASCII (encodable by
`str.encode("ascii")`)? -/
def isAsciiStr (s : String) : Bool := s.data.all (fun c => c.toNat < 128)

/-- `base64.urlsafe_b64decode(s)` on a `str`: `some bytes` on success,
`none` when `ValueError` (a non-ASCII character) or `binascii.Error`
(bad padding) is raised. -/
def urlsafeB64Decode (s : String) : Option (List Nat) :=
  if isAsciiStr s then a2bBase64Go (s.data.map b64UrlTranslate) 0 0 0 []
  else none

/-! ### UTF-8 decoding (`bytes.decode("utf-8", ...)`)

CPython's decoder: on an ill-formed sequence the error covers the maximal
valid prefix of the sequence (1–3 bytes); the `ignore` handler drops those
bytes and resumes at the next byte. -/

/-- Is `b` a UTF-8 continuation byte? -/
def utf8IsCont (b : Nat) : Bool := 128 ≤ b && b ≤ 191

/-- Allowed second byte after a 3-byte starter (excludes overlong forms
and surrogates). -/
def utf8Snd3 (b c1 : Nat) : Bool :=
  if b = 224 then 160 ≤ c1 && c1 ≤ 191
  else if b = 237 then 128 ≤ c1 && c1 ≤ 159
  else utf8IsCont c1

/-- Allowed second byte after a 4-byte starter (excludes overlong forms
and code points beyond U+10FFFF). -/
def utf8Snd4 (b c1 : Nat) : Bool :=
  if b = 240 then 144 ≤ c1 && c1 ≤ 191
  else if b = 244 then 128 ≤ c1 && c1 ≤ 143
  else utf8IsCont c1

/-- Decode one unit starting at byte `b` with lookahead `rest`.  Returns
the decoded char (or `none` on a decoding error) and how many bytes of
`rest` were consumed/covered beyond `b` itself. -/
def utf8Step (b : Nat) (rest : List Nat) : Option Char × Nat :=
  if b < 128 then (some (Char.ofNat b), 0)
  else if b < 194 then (none, 0)          -- lone continuation, 0xC0, 0xC1
  else if b < 224 then                    -- 2-byte sequence
    match rest with
    | c1 :: _ =>
        if utf8IsCont c1 then (some (Char.ofNat ((b - 192) * 64 + (c1 - 128))), 1)
        else (none, 0)
    | [] => (none, 0)
  else if b < 240 then                    -- 3-byte sequence
    match rest with
    | c1 :: rest1 =>
        if utf8Snd3 b c1 then
          match rest1 with
          | c2 :: _ =>
              if utf8IsCont c2 then
                (some (Char.ofNat ((b - 224) * 4096 + (c1 - 128) * 64 + (c2 - 128))), 2)
              else (none, 1)
          | [] => (none, 1)
        else (none, 0)
    | [] => (none, 0)
  else if b < 245 then                    -- 4-byte sequence
    match rest with
    | c1 :: rest1 =>
        if utf8Snd4 b c1 then
          match rest1 with
          | c2 :: rest2 =>
              if utf8IsCont c2 then
                match rest2 with
                | c3 :: _ =>
                    if utf8IsCont c3 then
                      (some (Char.ofNat ((b - 240) * 262144 + (c1 - 128) * 4096 +
                        (c2 - 128) * 64 + (c3 - 128))), 3)
                    else (none, 2)
                | [] => (none, 2)
              else (none, 1)
          | [] => (none, 1)
        else (none, 0)
    | [] => (none, 0)
  else (none, 0)                          -- 0xF5–0xFF

/-- `bytes.decode("utf-8", errors="ignore")`, recursion on a fuel bound:
each step consumes at least one byte, so the input length is enough fuel. -/
def utf8DecodeIgnoreGo : Nat → List Nat → List Char
  | 0, _ => []
  | _, [] => []
  | fuel + 1, b :: rest =>
      match utf8Step b rest with
      | (some c, k) => c :: utf8DecodeIgnoreGo fuel (rest.drop k)
      | (none, k) => utf8DecodeIgnoreGo fuel (rest.drop k)

/-- `bytes.decode("utf-8", errors="ignore")`. -/
def utf8DecodeIgnore (l : List Nat) : List Char := utf8DecodeIgnoreGo l.length l

/-- `bytes.decode("utf-8")` (strict), with the same fuel bound; `none`
models `UnicodeDecodeError`. -/
def utf8DecodeStrictGo : Nat → List Nat → Option (List Char)
  | 0, _ => some []
  | _, [] => some []
  | fuel + 1, b :: rest =>
      match utf8Step b rest with
      | (some c, k) => (utf8DecodeStrictGo fuel (rest.drop k)).map (c :: ·)
      | (none, _) => none

/-- `bytes.decode("utf-8")` (strict): `none` models `UnicodeDecodeError`. -/
def utf8DecodeStrict (l : List Nat) : Option (List Char) := utf8DecodeStrictGo l.length l

/-! ### Regular-expression matchers (`re.search`, `src/connectors/expense_parser.py`)

Each Python regex is embedded as a specialised leftmost-match scanner with
the backtracking the pattern can actually exercise. -/

/-- Python regex `\s` / `str.isspace` membership (ASCII/Latin-1 part). -/
def pyIsSpace (c : Char) : Bool :=
  c = ' ' || c = '\t' || c = '\n' || c = '\r' || c = '\x0b' || c = '\x0c' ||
  c = '\x1c' || c = '\x1d' || c = '\x1e' || c = '\x1f' || c = '\x85' ||
  c.toNat = 160

/-- Line boundaries recognised by `str.splitlines` (besides `'\n'`). -/
def pyIsLineBreak (c : Char) : Bool :=
  c = '\n' || c = '\r' || c = '\x0b' || c = '\x0c' ||
  c = '\x1c' || c = '\x1d' || c = '\x1e' || c = '\x85' ||
  c.toNat = 8232 || c.toNat = 8233

/-- `str.strip()` with no argument: drop leading/trailing whitespace. -/
def pyStrip (l : List Char) : List Char :=
  ((l.dropWhile pyIsSpace).reverse.dropWhile pyIsSpace).reverse

/-- `str.upper()` (ASCII part). -/
def pyUpper (s : String) : String := String.mk (s.data.map Char.toUpper)

/-- `str.lower()` (ASCII part). -/
def pyLower (s : String) : String := String.mk (s.data.map Char.toLower)

/-- Take exactly `n` leading digits (`\d{n}`), returning them and the rest. -/
def grabDigits : Nat → List Char → Option (List Char × List Char)
  | 0, l => some ([], l)
  | n + 1, c :: rest =>
      if c.isDigit then (grabDigits n rest).map (fun p => (c :: p.1, p.2)) else none
  | _ + 1, [] => none

/-- Expect a specific leading character. -/
def expectChar (c : Char) : List Char → Option (List Char)
  | d :: rest => if d = c then some rest else none
  | [] => none

/-- Drop a literal string from the front, or fail. -/
def dropLit : List Char → List Char → Option (List Char)
  | [], l => some l
  | c :: cs, d :: ds => if c = d then dropLit cs ds else none
  | _ :: _, [] => none

/-- Greedy `\d{1,maxN}`: take up to `maxN` leading digits. -/
def grabUpTo : Nat → List Char → List Char × List Char
  | 0, l => ([], l)
  | n + 1, c :: rest =>
      if c.isDigit then
        let (ds, r) := grabUpTo n rest
        (c :: ds, r)
      else ([], c :: rest)
  | _ + 1, [] => ([], [])

/-- `\d{4}-\d{2}-\d{2}` anchored at the front; returns the matched text. -/
def matchYMDAt (l : List Char) : Option (List Char) := do
  let (y, l1) ← grabDigits 4 l
  let l2 ← expectChar '-' l1
  let (m, l3) ← grabDigits 2 l2
  let l4 ← expectChar '-' l3
  let (d, _) ← grabDigits 2 l4
  return y ++ '-' :: m ++ '-' :: d

/-- `\d{1,2}/` anchored at the front (greedy, backtracking to one digit). -/
def matchFieldSlash (l : List Char) : Option (List Char × List Char) :=
  match grabDigits 2 l with
  | some (ds, l1) =>
      match expectChar '/' l1 with
      | some l2 => some (ds, l2)
      | none =>
          match grabDigits 1 l with
          | some (ds1, l1a) => (expectChar '/' l1a).map (fun l2 => (ds1, l2))
          | none => none
  | none =>
      match grabDigits 1 l with
      | some (ds1, l1a) => (expectChar '/' l1a).map (fun l2 => (ds1, l2))
      | none => none

/-- `\d{1,2}/\d{1,2}/\d{2,4}` anchored at the front. -/
def matchMDYAt (l : List Char) : Option (List Char) := do
  let (f1, l1) ← matchFieldSlash l
  let (f2, l2) ← matchFieldSlash l1
  -- greedy `\d{2,4}`: longest first, nothing follows in the pattern
  let y ← match grabDigits 4 l2 with
    | some (y4, _) => some y4
    | none =>
        match grabDigits 3 l2 with
        | some (y3, _) => some y3
        | none => (grabDigits 2 l2).map (·.1)
  return f1 ++ '/' :: f2 ++ '/' :: y

/-- `re.search(r"(\d{4}-\d{2}-\d{2}|\d{1,2}/\d{1,2}/\d{2,4})", text)`:
leftmost match, first alternative preferred. -/
def dateSearch : List Char → Option (List Char)
  | [] => none
  | c :: rest =>
      match matchYMDAt (c :: rest) with
      | some m => some m
      | none =>
          match matchMDYAt (c :: rest) with
          | some m => some m
          | none => dateSearch rest

/-- `(?:,\d{3})*` greedy: leading comma groups of exactly three digits. -/
def grabCommaGroups : List Char → List Char × List Char
  | ',' :: a :: b :: c :: rest =>
      if a.isDigit && b.isDigit && c.isDigit then
        let (g, r) := grabCommaGroups rest
        (',' :: a :: b :: c :: g, r)
      else ([], ',' :: a :: b :: c :: rest)
  | l => ([], l)

/-- `\d{1,3}(?:,\d{3})*(?:\.\d{2})?` anchored at the front. -/
def matchAmtDigits (l : List Char) : Option (List Char × List Char) :=
  match grabUpTo 3 l with
  | ([], _) => none
  | (d1, l1) =>
      let (groups, l2) := grabCommaGroups l1
      match l2 with
      | '.' :: a :: b :: l3 =>
          if a.isDigit && b.isDigit then some (d1 ++ groups ++ '.' :: a :: [b], l3)
          else some (d1 ++ groups, l2)
      | _ => some (d1 ++ groups, l2)

/-- `(?:\s*(USD|EUR|GBP))?`: greedy whitespace then a literal code. -/
def amtCode (l : List Char) : Option String :=
  match l.dropWhile pyIsSpace with
  | 'U' :: 'S' :: 'D' :: _ => some "USD"
  | 'E' :: 'U' :: 'R' :: _ => some "EUR"
  | 'G' :: 'B' :: 'P' :: _ => some "GBP"
  | _ => none

/-- Is `c` one of the currency symbols `[$€£]`? -/
def isCurrencySymbol (c : Char) : Bool := c = '$' || c = '€' || c = '£'

/-- `([$€£]?)(\d{1,3}(?:,\d{3})*(?:\.\d{2})?)(?:\s*(USD|EUR|GBP))?` anchored
at the front; returns the three groups. -/
def matchAmtAt : List Char → Option (String × String × Option String)
  | [] => none
  | c :: rest =>
      if isCurrencySymbol c then
        -- greedy optional symbol; if no digits follow, the empty-symbol
        -- alternative also fails (a symbol is not a digit)
        match matchAmtDigits rest with
        | some (ds, l2) => some (String.mk [c], String.mk ds, amtCode l2)
        | none => none
      else
        match matchAmtDigits (c :: rest) with
        | some (ds, l2) => some ("", String.mk ds, amtCode l2)
        | none => none

/-- `re.search` for the amount pattern: leftmost position that matches. -/
def amtSearch : List Char → Option (String × String × Option String)
  | [] => none
  | c :: rest =>
      match matchAmtAt (c :: rest) with
      | some g => some g
      | none => amtSearch rest

/-- Backtracking tail of `NAME[:\-]\s*(.+)`: `k` counts down from the
length of the whitespace run after the marker; the first position holding
a character other than `'\n'` starts group 1, which runs to end of line. -/
def markerGroupGo (l : List Char) : Nat → Option (List Char)
  | 0 =>
      match l with
      | c :: _ => if c = '\n' then none else some (l.takeWhile (fun x => x ≠ '\n'))
      | [] => none
  | k + 1 =>
      match l.drop (k + 1) with
      | c :: _ =>
          if c = '\n' then markerGroupGo l k
          else some ((l.drop (k + 1)).takeWhile (fun x => x ≠ '\n'))
      | [] => markerGroupGo l k

/-- `NAME[:\-]\s*(.+)` anchored at the front; returns group 1. -/
def matchMarkerAt (name : List Char) (l : List Char) : Option (List Char) :=
  match dropLit name l with
  | none => none
  | some l1 =>
      match l1 with
      | c :: l2 =>
          if c = ':' || c = '-' then markerGroupGo l2 (l2.takeWhile pyIsSpace).length
          else none
      | [] => none

/-- `re.search(r"NAME[:\-]\s*(.+)", text)`: leftmost occurrence whose tail
also matches. -/
def markerSearch (name : List Char) : List Char → Option (List Char)
  | [] => none
  | c :: rest =>
      match matchMarkerAt name (c :: rest) with
      | some g => some g
      | none => markerSearch name rest

/-- Digits of a numeral folded to a `Nat` (`int(...)` on a digit string). -/
def digitsToNat (l : List Char) : Nat :=
  l.foldl (fun acc c => acc * 10 + (c.toNat - 48)) 0

/-- `float(amt_str.replace(",", ""))` for the shapes the amount regex can
produce: the exact decimal `ip.fp = (ip·10^|fp| + fp) / 10^|fp|` in `ℚ`. -/
def parseAmount (l : List Char) : ℚ :=
  let l2 := l.filter (fun c => c ≠ ',')
  let ip := l2.takeWhile (fun c => c ≠ '.')
  let fp := (l2.dropWhile (fun c => c ≠ '.')).drop 1
  mkRat (digitsToNat ip * 10 ^ fp.length + digitsToNat fp) (10 ^ fp.length)

/-- `symbol_map.get(currency_symbol, "USD")`. -/
def symbolMapGet (sym : String) : String :=
  if sym = "$" then "USD" else if sym = "€" then "EUR"
  else if sym = "£" then "GBP" else "USD"

/-! ### `datetime.strptime` for the three formats used by `normalize_formats`

CPython `_strptime`: `%Y` matches exactly four digits, `%m`/`%d`/`%y` one
or two digits (greedy), the whole string must be consumed, and the parsed
numbers must form a valid `datetime.date`. -/

/-- Gregorian leap year (as `calendar.isleap` / `datetime`). -/
def isLeapYear (y : Nat) : Bool := y % 4 = 0 && (y % 100 ≠ 0 || y % 400 = 0)

/-- Days in a month. -/
def daysInMonth (y m : Nat) : Nat :=
  if m = 2 then (if isLeapYear y then 29 else 28)
  else if m = 4 || m = 6 || m = 9 || m = 11 then 30
  else 31

/-- `datetime.date(y, m, d)` constructor check (MINYEAR/MAXYEAR bounds). -/
def validDate (y m d : Nat) : Bool :=
  1 ≤ y && y ≤ 9999 && 1 ≤ m && m ≤ 12 && 1 ≤ d && d ≤ daysInMonth y m

/-- Greedy `\d{1,2}` followed by the separator `sep` (backtracks to one
digit when two digits are not followed by `sep`). -/
def matchFieldSep (sep : Char) (l : List Char) : Option (List Char × List Char) :=
  match grabDigits 2 l with
  | some (ds, l1) =>
      match expectChar sep l1 with
      | some l2 => some (ds, l2)
      | none =>
          match grabDigits 1 l with
          | some (ds1, l1a) => (expectChar sep l1a).map (fun l2 => (ds1, l2))
          | none => none
  | none =>
      match grabDigits 1 l with
      | some (ds1, l1a) => (expectChar sep l1a).map (fun l2 => (ds1, l2))
      | none => none

/-- Greedy `\d{1,2}` at end of input (the whole string must be consumed). -/
def matchDigitsEnd (l : List Char) : Option (List Char) :=
  match grabDigits 2 l with
  | some (ds, []) => some ds
  | _ =>
      match grabDigits 1 l with
      | some (ds, []) => some ds
      | _ => none

/-- `datetime.strptime(s, "%Y-%m-%d")`, as `(year, month, day)`. -/
def strptimeYmd (l : List Char) : Option (Nat × Nat × Nat) := do
  let (ys, l1) ← grabDigits 4 l
  let l2 ← expectChar '-' l1
  let (ms, l3) ← matchFieldSep '-' l2
  let ds ← matchDigitsEnd l3
  let y := digitsToNat ys
  let m := digitsToNat ms
  let d := digitsToNat ds
  if validDate y m d then some (y, m, d) else none

/-- `datetime.strptime(s, "%m/%d/%Y")`. -/
def strptimeMdY (l : List Char) : Option (Nat × Nat × Nat) := do
  let (ms, l1) ← matchFieldSep '/' l
  let (ds, l2) ← matchFieldSep '/' l1
  let (ys, l3) ← grabDigits 4 l2
  match l3 with
  | [] =>
      let y := digitsToNat ys
      let m := digitsToNat ms
      let d := digitsToNat ds
      if validDate y m d then some (y, m, d) else none
  | _ :: _ => none

/-- `datetime.strptime(s, "%m/%d/%y")`: two-digit years 00–68 map to
2000–2068 and 69–99 to 1969–1999. -/
def strptimeMdy (l : List Char) : Option (Nat × Nat × Nat) := do
  let (ms, l1) ← matchFieldSep '/' l
  let (ds, l2) ← matchFieldSep '/' l1
  let ys ← matchDigitsEnd l2
  match ys with
  | [_, _] =>
      let y2 := digitsToNat ys
      let y := if y2 ≤ 68 then 2000 + y2 else 1900 + y2
      let m := digitsToNat ms
      let d := digitsToNat ds
      if validDate y m d then some (y, m, d) else none
  | _ => none

/-- The `for fmt in ("%Y-%m-%d", "%m/%d/%Y", "%m/%d/%y")` loop: first
format that parses wins. -/
def strptimeDate (s : String) : Option (Nat × Nat × Nat) :=
  match strptimeYmd s.data with
  | some r => some r
  | none =>
      match strptimeMdY s.data with
      | some r => some r
      | none => strptimeMdy s.data

/-- `'0'`-based digit character (`k` taken mod 10). -/
def digitChar (k : Nat) : Char := Char.ofNat (48 + k % 10)

/-- Two-digit zero-padded numeral. -/
def pad2 (n : Nat) : List Char := [digitChar (n / 10), digitChar n]

/-- Four-digit zero-padded numeral. -/
def pad4 (n : Nat) : List Char :=
  [digitChar (n / 1000), digitChar (n / 100), digitChar (n / 10), digitChar n]

/-- `datetime.date(y, m, d).isoformat()`. -/
def isoFormatDate (y m d : Nat) : String :=
  String.mk (pad4 y ++ '-' :: pad2 m ++ '-' :: pad2 d)

/-- The date part of `normalize_formats`: ISO output of the first format
that parses, the raw string unchanged when none does. -/
def normalizeDateStr (raw_date : String) : String :=
  match strptimeDate raw_date with
  | some (y, m, d) => isoFormatDate y m d
  | none => raw_date

/-! ### The parsing pipeline (`src/connectors/expense_parser.py`)

The pipeline context is the `Dict[str, Any]` seeded with `{"raw": raw}`;
each stage's returned dict is merged into it (`context.update(result)`).
The keys the default stages touch are modelled as `Option` fields (`none`
= key absent); `currency`, `category` and `description` can be present
with the value `None`, hence `Option (Option String)`. -/

/-- The pipeline context. -/
structure Context where
  raw : RawEmail
  body_text : Option String := none
  subject : Option String := none
  date : Option String := none
  vendor : Option String := none
  amount : Option ℚ := none
  currency : Option (Option String) := none
  category : Option (Option String) := none
  description : Option (Option String) := none
deriving DecidableEq

/-- A parsing step (`ParseStep = Callable[[Dict], Dict]`); an `.error`
is an exception escaping the step. -/
def ParseStep : Type := Context → Except PyErr Context

/-- `decode_body`: base64-url-decode the body (padding appended), decode
the bytes as UTF-8 ignoring errors; on any exception fall back to the
raw body text. -/
def decode_body (ctx : Context) : Except PyErr Context :=
  let raw := ctx.raw
  let body_text :=
    match urlsafeB64Decode (raw.body ++ "===") with
    | some bytes => String.mk (utf8DecodeIgnore bytes)
    | none => raw.body
  .ok { ctx with body_text := some body_text, subject := some raw.subject }

/-- `extract_fields`: regex extraction of date, amount+currency, vendor,
category and description from `body_text`, with defaulting.  Raises
`KeyError` when `body_text`/`subject` are missing and `IndexError` when
the vendor match strips to the empty string (`.splitlines()[0]`). -/
def extract_fields (ctx : Context) : Except PyErr Context := do
  let text ← match ctx.body_text with
    | some t => Except.ok t
    | none => Except.error PyErr.keyError
  let l := text.data
  let raw_date := match dateSearch l with
    | some m => String.mk m
    | none => ""
  let (currency_symbol, amt_str, currency_code) :=
    match amtSearch l with
    | some g => g
    | none => ("", "0", none)
  let amount := parseAmount amt_str.data
  let currency := match currency_code with
    | some c => c
    | none => symbolMapGet currency_symbol
  let vendor ← match markerSearch "Vendor".data l with
    | some g =>
        match pyStrip g with
        | [] => Except.error PyErr.indexError
        | s => Except.ok (String.mk (s.takeWhile (fun c => !(pyIsLineBreak c))))
    | none =>
        -- `context["subject"] or "Unknown"`: the subject key is read
        -- only in this branch, and the empty string is falsy
        match ctx.subject with
        | some subject => Except.ok (if subject = "" then "Unknown" else subject)
        | none => Except.error PyErr.keyError
  let category := (markerSearch "Category".data l).map (fun g => String.mk (pyStrip g))
  let description := (markerSearch "Description".data l).map (fun g => String.mk (pyStrip g))
  .ok { ctx with
        date := some raw_date, vendor := some vendor, amount := some amount,
        currency := some (some currency), category := some category,
        description := some description }

/-- `normalize_formats`: canonicalize the date; uppercase the currency
(`None` when the currency key is absent, `None`, or empty). -/
def normalize_formats (ctx : Context) : Except PyErr Context := do
  let raw_date ← match ctx.date with
    | some d => Except.ok d
    | none => Except.error PyErr.keyError
  let iso_date := normalizeDateStr raw_date
  let currency : Option String :=
    match ctx.currency with
    | some (some c) => if c = "" then none else some (pyUpper c)
    | _ => none
  .ok { ctx with date := some iso_date, currency := some currency }

/-- `build_parsed_expense` / `ParsedExpense(**context)`: pydantic accepts
the context when every declared field is present with its declared type
(`None` is rejected for the four required `str`/`float` fields, accepted
for the two `Optional[str]` fields); extra keys are ignored; no other
validation is performed. -/
def build_parsed_expense (ctx : Context) : Except PyErr ParsedExpense :=
  match ctx.date, ctx.vendor, ctx.amount, ctx.currency, ctx.category, ctx.description with
  | some d, some v, some a, some (some c), some cat, some desc =>
      .ok ⟨d, v, a, c, cat, desc⟩
  | _, _, _, _, _, _ => .error PyErr.validationError

/-- `for step in self.steps: context.update(step(context))`. -/
def runSteps : List ParseStep → Context → Except PyErr Context
  | [], ctx => .ok ctx
  | s :: rest, ctx =>
      match s ctx with
      | .ok ctx2 => runSteps rest ctx2
      | .error e => .error e

/-- The default pipeline `decode → extract → normalize`. -/
def defaultSteps : List ParseStep := [decode_body, extract_fields, normalize_formats]

/-- `DefaultExpenseParser.parse` with the default pipeline. -/
def DefaultExpenseParser.parse (raw : RawEmail) : Except PyErr ParsedExpense :=
  match runSteps defaultSteps { raw := raw } with
  | .ok ctx => build_parsed_expense ctx
  | .error e => .error e

/-! ### Retry loops (`sheets_connector.append_row`, `slack_connector.send_notification`)

Each attempt of the remote operation is modelled by an oracle
`op : Nat → Outcome` giving the outcome of the i-th attempt (0-indexed).
A run result records how many attempts were made, the backoff delays slept
(in order), and — on failure — which attempt's error was surfaced. -/

/-- Outcome of one attempt: success, or an API error carrying the
HTTP status code of its response (`none` when there is no response). -/
inductive Outcome where
  | ok
  | err (status : Option Nat)
deriving DecidableEq

/-- Result of a retry-loop run. -/
inductive RunResult where
  | success (attemptsMade : Nat) (delays : List ℚ)
  | failure (attemptsMade : Nat) (delays : List ℚ) (errorAttempt : Nat) (errorStatus : Option Nat)
deriving DecidableEq

/-- `sheets_connector.append_row` retry classification:
`if status and status >= 500` — truthy status at least 500.
(The adjacent comment in the source says "Only retry on 429 / 5xx".) -/
def sheetsRetryable (st : Option Nat) : Bool :=
  match st with
  | some s => s ≠ 0 && 500 ≤ s
  | none => false

/-- `slack_connector.send_notification` retry classification:
`code and (code == 429 or 500 <= code < 600)`. -/
def slackRetryable (st : Option Nat) : Bool :=
  match st with
  | some c => c ≠ 0 && (c = 429 || (500 ≤ c && c < 600))
  | none => false

/-- The `while attempt <= self._max_retries` loop of `sync_append`
(`sheets_connector.py`), with `fuel = maxRetries + 1 - attempt` iterations
remaining (so `fuel = 0` is the guard failing — the loop falls through and
the call returns `None`, i.e. success — and in the `fuel + 1` state
`attempt == self._max_retries` is exactly `fuel = 0` after this
iteration).  `delays` accumulates slept delays most recent first. -/
def sheetsAppendGo (op : Nat → Outcome) (backoff : ℚ) :
    Nat → Nat → List ℚ → RunResult
  | 0, attempt, delays => .success attempt delays.reverse
  | fuel + 1, attempt, delays =>
      match op attempt with
      | .ok => .success (attempt + 1) delays.reverse
      | .err st =>
          if sheetsRetryable st then
            if fuel = 0 then .failure (attempt + 1) delays.reverse attempt st
            else sheetsAppendGo op backoff fuel (attempt + 1)
              (backoff * 2 ^ attempt :: delays)
          else .failure (attempt + 1) delays.reverse attempt st

/-- `append_row`'s retry loop from the initial state. -/
def sheetsAppendRun (op : Nat → Outcome) (maxRetries : Nat) (backoff : ℚ) : RunResult :=
  sheetsAppendGo op backoff (maxRetries + 1) 0 []

/-- The `while True` loop of `send_notification` (`slack_connector.py`),
with `fuel = maxRetries - attempt` retries remaining: the retry branch
requires `attempt < self.max_retries`, i.e. `fuel > 0`.  A non-retryable
error or an exhausted retry budget surfaces the current attempt's error
(wrapped in a `RuntimeError`). -/
def slackSendGo (op : Nat → Outcome) (backoff : ℚ) :
    Nat → Nat → List ℚ → RunResult
  | 0, attempt, delays =>
      (match op attempt with
       | .ok => .success (attempt + 1) delays.reverse
       | .err st => .failure (attempt + 1) delays.reverse attempt st)
  | fuel + 1, attempt, delays =>
      match op attempt with
      | .ok => .success (attempt + 1) delays.reverse
      | .err st =>
          if slackRetryable st then
            slackSendGo op backoff fuel (attempt + 1)
              (backoff * 2 ^ attempt :: delays)
          else .failure (attempt + 1) delays.reverse attempt st

/-- `send_notification`'s retry loop from the initial state. -/
def slackSendRun (op : Nat → Outcome) (maxRetries : Nat) (backoff : ℚ) : RunResult :=
  slackSendGo op backoff maxRetries 0 []

/-! ### Workflow orchestrator (`src/workflow.py`)

The external collaborators are oracles.  `asyncio.gather` over per-item
tasks is modelled denotationally by the list of per-item results in input
order: the tasks share no mutable state, each touches only its own item,
and every exception is caught inside its own task. -/

/-- One button of the Slack attachment dict built in `process_email`. -/
structure SlackAction where
  name : String
  text : String
  type : String
  style : String
  value : String
deriving DecidableEq

/-- The attachment dict built in `process_email`. -/
structure SlackAttachments where
  fallback : String
  callback_id : String
  actions : List SlackAction
deriving DecidableEq

/-- The literal attachments of `process_email` (approve/reject buttons). -/
def expenseAttachments : SlackAttachments :=
  { fallback := "Approve or reject the expense"
    callback_id := "expense_approval"
    actions :=
      [ ⟨"approve", "Approve", "button", "primary", "approve"⟩,
        ⟨"reject", "Reject", "button", "danger", "reject"⟩ ] }

/-- `f"{n:.2f}"` at the decimal level: `⌊q·100 + 1/2⌋` rendered with two
fraction digits (amounts in this program carry at most two fraction
digits, where no rounding occurs and this is exact). -/
def formatFixed2 (q : ℚ) : String :=
  let n : ℤ := Int.fdiv (2 * (q.num * 100) + (q.den : ℤ)) (2 * (q.den : ℤ))
  let m := n.natAbs
  let frac := m % 100
  (if n < 0 then "-" else "") ++ toString (m / 100) ++ "." ++
    (if frac < 10 then "0" else "") ++ toString frac

/-- `v or dflt` for an optional string: `None` and the falsy empty
string both fall back to the default. -/
def orDefault (v : Option String) (dflt : String) : String :=
  match v with
  | some s => if s = "" then dflt else s
  | none => dflt

/-- The notification text built in `process_email`. -/
def notificationText (e : ParsedExpense) : String :=
  "New Expense Submitted:\n" ++
  "• Date: " ++ e.date ++ "\n" ++
  "• Vendor: " ++ e.vendor ++ "\n" ++
  "• Amount: " ++ formatFixed2 e.amount ++ " " ++ e.currency ++ "\n" ++
  "• Category: " ++ orDefault e.category "Uncategorized" ++ "\n" ++
  "• Description: " ++ orDefault e.description "None"

/-- Behaviour of the external collaborators during one run, plus the
parser instance (`DefaultExpenseParser` is pluggable, so its behaviour is
a parameter; the default instance is `DefaultExpenseParser.parse`).
`E` is the type of exceptions thrown by the connectors. -/
structure WorkflowEnv (E : Type) where
  parse : RawEmail → Except PyErr ParsedExpense
  recordExpense : ParsedExpense → Except E Unit
  sendNotification : String → String → SlackAttachments → Except E Unit
  markAsRead : String → Except E Unit
  defaultChannel : String

/-- Which sub-step of `process_email` raised, and its exception. -/
inductive StageErr (E : Type) where
  | parseFailed (e : PyErr)
  | recordFailed (e : E)
  | notifyFailed (e : E)
  | ackFailed (e : E)
deriving DecidableEq

/-- Result of one item's task: fully acknowledged, or an error caught at
the task boundary and written to stderr. -/
inductive ItemOutcome (E : Type) where
  | acknowledged
  | reported (err : StageErr E)
deriving DecidableEq

/-- The `try:` body of `process_email`: parse, record, notify, acknowledge
in order; the first exception aborts the remaining sub-steps. -/
def processEmailBody {E : Type} (env : WorkflowEnv E) (raw : RawEmail) :
    Except (StageErr E) Unit := do
  let expense ← (env.parse raw).mapError StageErr.parseFailed
  (env.recordExpense expense).mapError StageErr.recordFailed
  (env.sendNotification env.defaultChannel (notificationText expense)
    expenseAttachments).mapError StageErr.notifyFailed
  (env.markAsRead raw.message_id).mapError StageErr.ackFailed

/-- `process_email`: the whole body is wrapped in `try/except Exception`,
so the task itself never raises. -/
def processEmail {E : Type} (env : WorkflowEnv E) (raw : RawEmail) : ItemOutcome E :=
  match processEmailBody env raw with
  | .ok _ => .acknowledged
  | .error e => .reported e

/-- `ExpenseWorkflow.run` after a successful fetch: every item is
dispatched (under the semaphore) and its caught outcome collected;
`await asyncio.gather(...)` completes when all per-item tasks have. -/
def runWorkflow {E : Type} (env : WorkflowEnv E) (emails : List RawEmail) :
    List (ItemOutcome E) :=
  emails.map (processEmail env)

/-! ### Gmail connector (`src/connectors/gmail_connector.py`) -/

/-- One entry of `payload["headers"]`. -/
structure GmailHeader where
  name : String
  value : String
deriving DecidableEq

/-- One entry of `payload["parts"]` (only the fields the code reads). -/
structure GmailPart where
  mimeType : String
  data : Option String
deriving DecidableEq

/-- A fetched message payload (only the fields the code reads). -/
structure GmailMessage where
  headers : List GmailHeader
  parts : List GmailPart
deriving DecidableEq

/-- Behaviour of the Gmail service during one fetch: the ids returned by
the initial `list` call (or its `HttpError`), and each `get` call's
payload (or its `HttpError`). -/
structure GmailEnv (E : Type) where
  listUnread : Except E (List String)
  getMessage : String → Except E GmailMessage

/-- A failure surfaced by `fetch_unread_receipts`: the wrapped listing
error, or an exception escaping body extraction (uncaught in the source). -/
inductive FetchErr (E : Type) where
  | listFailed (e : E)
  | buildFailed (e : PyErr)
deriving DecidableEq

/-- `{h["name"].lower(): h["value"] for h in headers}.get("subject", "")`:
in a dict comprehension the last duplicate key wins. -/
def headerSubject (hs : List GmailHeader) : String :=
  match hs.reverse.find? (fun h => pyLower h.name = "subject") with
  | some h => h.value
  | none => ""

/-- `str.startswith(prefix)`. -/
def strStartsWith (s pre : String) : Bool := (dropLit pre.data s.data).isSome

/-- The body-extraction loop: concatenate the strict-UTF-8 decode of the
base64url `data` of every `text/*` part.  Note: no padding is appended
here and errors are not caught, so a `binascii.Error` or
`UnicodeDecodeError` escapes `fetch_unread_receipts` entirely. -/
def buildBodyText : List GmailPart → Except PyErr String
  | [] => .ok ""
  | p :: rest =>
      if strStartsWith p.mimeType "text/" then
        match p.data with
        | some d =>
            match urlsafeB64Decode d with
            | some bytes =>
                match utf8DecodeStrict bytes with
                | some cs => (buildBodyText rest).map (fun tail => String.mk cs ++ tail)
                | none => .error PyErr.unicodeDecodeError
            | none => .error PyErr.binasciiError
        | none => buildBodyText rest
      else buildBodyText rest

/-- Build the `RawEmail` appended for one successfully fetched message. -/
def buildRawEmail (msgId : String) (msg : GmailMessage) : Except PyErr RawEmail := do
  let body ← buildBodyText msg.parts
  .ok ⟨msgId, headerSubject msg.headers, body⟩

/-- `fetch_unread_receipts`: a listing failure is wrapped and raised; a
`get` failure for an individual message skips that message silently. -/
def fetchUnreadReceipts {E : Type} (env : GmailEnv E) :
    Except (FetchErr E) (List RawEmail) :=
  match env.listUnread with
  | .error e => .error (.listFailed e)
  | .ok ids => go env ids
where
  /-- The `for msg_meta in msg_list` loop. -/
  go (env : GmailEnv E) : List String → Except (FetchErr E) (List RawEmail)
    | [] => .ok []
    | msgId :: rest =>
        match env.getMessage msgId with
        | .error _ => go env rest
        | .ok msg =>
            match buildRawEmail msgId msg with
            | .error pe => .error (.buildFailed pe)
            | .ok re => (go env rest).map (re :: ·)

/-! ### Auxiliary definitions for the verification statements -/

instance {ε α : Type _} [DecidableEq ε] [DecidableEq α] : DecidableEq (Except ε α) :=
  fun a b =>
    match a, b with
    | .ok x, .ok y =>
        if h : x = y then .isTrue (by rw [h])
        else .isFalse (fun hc => h (Except.ok.inj hc))
    | .error x, .error y =>
        if h : x = y then .isTrue (by rw [h])
        else .isFalse (fun hc => h (Except.error.inj hc))
    | .ok _, .error _ => .isFalse (fun hc => Except.noConfusion hc)
    | .error _, .ok _ => .isFalse (fun hc => Except.noConfusion hc)

/-- The body of the spec's end-to-end example. -/
def c1Body : String :=
  "Vendor: Example Corp\nDate: 2025-07-06\nAmount: $42.99\nCategory: Meals\nDescription: Lunch with client"

/-- The `Expense` value the spec's end-to-end example claims. -/
def c1ClaimedExpense : ParsedExpense :=
  ⟨"2025-07-06", "Example Corp", mkRat 4299 100, "USD", some "Meals", some "Lunch with client"⟩

/-- The `Expense` value the code actually produces on the example. -/
def c1ActualExpense : ParsedExpense := ⟨"", "Unknown", 1, "USD", none, none⟩

/-- A fully-populated context whose values violate every structural
invariant the spec ascribes to a constructed `Expense`. -/
def c6BadContext : Context :=
  { raw := ⟨"m1", "s", "b"⟩, date := some "not-a-date", vendor := some "",
    amount := some (-5), currency := some (some "usd"),
    category := some none, description := some none }

/-- The backoff delays `backoff * 2^a, …, backoff * 2^(a+k-1)`. -/
def delaysList (backoff : ℚ) (a k : Nat) : List ℚ :=
  (List.range k).map (fun i => backoff * 2 ^ (a + i))

/-- Characters the non-strict base64 decoder does not discard. -/
def b64Data (c : Char) : Bool := (b64Val c).isSome || c = '='

/-- Concrete workflow environment for the isolation witness: parsing
echoes the subject as vendor, the notifier rejects vendor "B". -/
def c4Env : WorkflowEnv Unit :=
  { parse := fun r => .ok ⟨"2025-01-01", r.subject, 1, "USD", none, none⟩
    recordExpense := fun _ => .ok ()
    sendNotification := fun _ t _ =>
      if t = notificationText ⟨"2025-01-01", "B", 1, "USD", none, none⟩ then .error ()
      else .ok ()
    markAsRead := fun _ => .ok ()
    defaultChannel := "C1" }

/-- Concrete three-item batch for the isolation witness. -/
def c4Emails : List RawEmail := [⟨"1", "A", "x"⟩, ⟨"2", "B", "x"⟩, ⟨"3", "C", "x"⟩]

/-- Concrete Gmail environment for the skip witness: listing succeeds
with two ids, fetching the first fails, the second is a plain message. -/
def c10Env : GmailEnv Unit :=
  { listUnread := .ok ["a", "b"]
    getMessage := fun msgId =>
      if msgId = "b" then
        .ok { headers := [⟨"Subject", "receipt"⟩],
              parts := [{ mimeType := "text/plain", data := some "aGk=" }] }
      else .error () }

/-! ## Theorems -/

/-- C1: the default pipeline (decode, extract, normalize, construct) on the
raw item whose body is the spec's end-to-end example does NOT yield the
claimed `Expense{date:"2025-07-06", vendor:"Example Corp", amount:42.99,
currency:"USD", category:"Meals", description:"Lunch with client"}`: the
decode stage base64-decodes the plain-text body into garbled text, and the
pipeline returns `Expense{date:"", vendor:"Unknown", amount:1.0,
currency:"USD", category:None, description:None}`. -/
theorem c1_pipeline_example :
    DefaultExpenseParser.parse ⟨"m1", "", c1Body⟩ = .ok c1ActualExpense ∧
    DefaultExpenseParser.parse ⟨"m1", "", c1Body⟩ ≠ .ok c1ClaimedExpense := by
  constructor
  · decide
  · decide

/-- C2: the sheets-append retry classification differs from the
notification-send one: an error with status 429 is retried by the
notification sender but surfaced immediately (with no delay and no
further attempt) by the spreadsheet appender, and a status of 600 is
retried by the spreadsheet appender but not by the notification sender. -/
theorem c2_classification_divergence :
    sheetsRetryable (some 429) = false ∧
    slackRetryable (some 429) = true ∧
    sheetsRetryable (some 600) = true ∧
    slackRetryable (some 600) = false ∧
    (∀ b : ℚ, sheetsAppendRun (fun _ => Outcome.err (some 429)) 3 b =
       RunResult.failure 1 [] 0 (some 429)) := by
  refine ⟨by decide, by decide, by decide, by decide, ?_⟩
  intro b
  simp [sheetsAppendRun, sheetsAppendGo, sheetsRetryable]

/-- C3: field extraction is not total: on the body text `"Vendor: "` the
vendor regex matches with a group that strips to the empty string, and
`.splitlines()[0]` raises `IndexError` instead of falling back to the
subject default. -/
theorem c3_extract_raises :
    extract_fields { raw := ⟨"m1", "Subj", "b"⟩, body_text := some "Vendor: ",
                     subject := some "Subj" } = .error PyErr.indexError := by
  decide

/-- C6: a counterexample to structural validity of constructed expenses:
construction succeeds on a context whose date is not an ISO-8601 date,
whose vendor is empty, whose amount is negative and whose currency is a
lowercase code. -/
theorem c6_no_structural_validation :
    build_parsed_expense c6BadContext =
      .ok ⟨"not-a-date", "", -5, "usd", none, none⟩ ∧
    (ParsedExpense.vendor ⟨"not-a-date", "", -5, "usd", none, none⟩ = "" ∧
     ParsedExpense.amount ⟨"not-a-date", "", -5, "usd", none, none⟩ < 0) := by
  refine ⟨by decide, by decide, by decide⟩

/-- C6 (amended): construction succeeds — echoing the context's values
with no further validation — exactly when every declared field key is
present and the four required fields are not `None`; a missing required
key, a missing optional key, or a `None` currency raises a
`ValidationError`. -/
theorem c6_amended_build (ctx : Context) :
    (∀ d v a c cat desc, ctx.date = some d → ctx.vendor = some v →
       ctx.amount = some a → ctx.currency = some (some c) →
       ctx.category = some cat → ctx.description = some desc →
       build_parsed_expense ctx = .ok ⟨d, v, a, c, cat, desc⟩) ∧
    ((ctx.date = none ∨ ctx.vendor = none ∨ ctx.amount = none ∨
      ctx.currency = none ∨ ctx.currency = some none ∨
      ctx.category = none ∨ ctx.description = none) →
     build_parsed_expense ctx = .error PyErr.validationError) := by
  obtain ⟨raw, bt, subj, od, ov, oa, oc, ocat, odesc⟩ := ctx
  constructor
  · intro d v a c cat desc hd hv ha hc hcat hdesc
    simp only at hd hv ha hc hcat hdesc
    subst hd hv ha hc hcat hdesc
    rfl
  · intro h
    rcases od with _ | d <;> rcases ov with _ | v <;> rcases oa with _ | a <;>
      rcases oc with _ | oc2 <;> try rcases oc2 with _ | c
    all_goals rcases ocat with _ | cat <;> rcases odesc with _ | desc
    all_goals simp_all [build_parsed_expense]

/-- C6 witness: the amended construction theorem applied to a concrete
complete context. -/
theorem c6_amended_build_witness :
    build_parsed_expense
      { raw := ⟨"m", "s", "b"⟩, date := some "2025-07-06", vendor := some "V",
        amount := some 1, currency := some (some "USD"),
        category := some none, description := some none } =
      .ok ⟨"2025-07-06", "V", 1, "USD", none, none⟩ :=
  (c6_amended_build _).1 _ _ _ _ _ _ rfl rfl rfl rfl rfl rfl

/-- Skipped characters do not change the base64 decoder's behaviour:
decoding equals decoding of the kept (alphabet or `'='`) characters. -/
theorem a2bBase64Go_filter (l : List Char) : ∀ quadPos acc pads out,
    a2bBase64Go l quadPos acc pads out =
      a2bBase64Go (l.filter b64Data) quadPos acc pads out := by
  induction l with
  | nil => intro q a p o; rfl
  | cons c rest ih =>
      intro q a p o
      by_cases hc : c = '='
      · subst hc
        have hf : List.filter b64Data ('=' :: rest) = '=' :: rest.filter b64Data := by
          simp [List.filter, b64Data]
        rw [hf]
        simp only [a2bBase64Go, reduceIte]
        by_cases hq : 2 ≤ q ∧ 4 ≤ q + (p + 1)
        · rw [if_pos hq, if_pos hq]
        · rw [if_neg hq, if_neg hq]
          exact ih q a (p + 1) o
      · rcases hv : b64Val c with _ | v
        · have hf : List.filter b64Data (c :: rest) = rest.filter b64Data := by
            simp [List.filter, b64Data, hv, hc]
          rw [hf]
          simp only [a2bBase64Go, hv, hc, reduceIte]
          exact ih q a p o
        · have hf : List.filter b64Data (c :: rest) = c :: rest.filter b64Data := by
            simp [List.filter, b64Data, hv]
          rw [hf]
          simp only [a2bBase64Go, hv, hc, reduceIte]
          by_cases hq3 : q = 3
          · rw [if_pos hq3, if_pos hq3]
            exact ih 0 0 0 _
          · rw [if_neg hq3, if_neg hq3]
            exact ih (q + 1) (a * 64 + v) 0 o

/-- C9 counterexample: on the body `"éAAAA"` the body's characters
outside the URL-safe base64 alphabet discarded and padding appended
decode successfully as base64 (to the bytes `[0, 0, 0]`), yet the
program raises `ValueError` at the ASCII check of `urlsafe_b64decode`
and returns the original body unchanged — not the UTF-8 decoding of
those bytes as the claim requires. -/
theorem c9_nonascii_counterexample :
    a2bBase64Go ((("éAAAA" ++ "===" : String).data.map b64UrlTranslate).filter
      b64Data) 0 0 0 [] = some [0, 0, 0] ∧
    decode_body { raw := ⟨"m", "s", "éAAAA"⟩ } =
      .ok { raw := ⟨"m", "s", "éAAAA"⟩, body_text := some "éAAAA",
            subject := some "s" } ∧
    ("éAAAA" : String) ≠ String.mk (utf8DecodeIgnore [0, 0, 0]) := by
  refine ⟨by decide, by decide, by decide⟩

/-- C9 (amended): the decode stage is total — it always returns an
updated context.  When the body is pure ASCII and, with characters
outside the URL-safe base64 alphabet discarded and padding appended,
decodes successfully as base64, `body_text` is the UTF-8 decoding
(invalid bytes ignored) of the decoded bytes, silently replacing such a
plain-text body by garbled text; when the body contains a non-ASCII
character (`ValueError` before any decoding) or the decode raises,
`body_text` is the original body unchanged. -/
theorem c9_decode_total_amended (ctx : Context) :
    (∃ ctx2, decode_body ctx = .ok ctx2) ∧
    (∀ bytes, urlsafeB64Decode (ctx.raw.body ++ "===") = some bytes →
      decode_body ctx = .ok { ctx with
        body_text := some (String.mk (utf8DecodeIgnore bytes)),
        subject := some ctx.raw.subject }) ∧
    (urlsafeB64Decode (ctx.raw.body ++ "===") = none →
      decode_body ctx = .ok { ctx with
        body_text := some ctx.raw.body,
        subject := some ctx.raw.subject }) ∧
    (¬ isAsciiStr ctx.raw.body = true →
      urlsafeB64Decode (ctx.raw.body ++ "===") = none) ∧
    (∀ s : String, isAsciiStr s = true →
      urlsafeB64Decode s =
        a2bBase64Go ((s.data.map b64UrlTranslate).filter b64Data) 0 0 0 []) := by
  refine ⟨⟨_, rfl⟩, ?_, ?_, ?_, ?_⟩
  · intro bytes h
    simp [decode_body, h]
  · intro h
    simp [decode_body, h]
  · intro h
    have hb : isAsciiStr (ctx.raw.body ++ "===") = false := by
      rcases hcase : isAsciiStr (ctx.raw.body ++ "===") with _ | _
      · rfl
      · exact absurd (by
          have := hcase
          simp only [isAsciiStr, String.data_append, List.all_append,
            Bool.and_eq_true] at this
          simpa [isAsciiStr] using this.1) h
    simp [urlsafeB64Decode, hb]
  · intro s hs
    simp only [urlsafeB64Decode, hs, if_true]
    exact a2bBase64Go_filter _ 0 0 0 []

/-- C9 witness: the decode-success case on a concrete ASCII base64url
body, via the amended theorem. -/
theorem c9_decode_total_amended_witness :
    decode_body { raw := ⟨"m", "s", "SGVsbG8"⟩ } =
      .ok { raw := ⟨"m", "s", "SGVsbG8"⟩, body_text := some "Hello",
            subject := some "s" } := by
  rw [(c9_decode_total_amended { raw := ⟨"m", "s", "SGVsbG8"⟩ }).2.1
    [72, 101, 108, 108, 111] (by decide)]
  rfl

/-- The message loop of `fetch_unread_receipts`: when every successfully
fetched message also builds a `RawEmail` without raising, the loop returns
exactly the built emails of the messages whose `get` succeeded, skipping
failed `get`s silently. -/
theorem fetchGo_skips_failures {E : Type} (env : GmailEnv E) (ids : List String)
    (h : ∀ msgId, msgId ∈ ids → ∀ msg, env.getMessage msgId = .ok msg →
       ∃ re, buildRawEmail msgId msg = .ok re) :
    fetchUnreadReceipts.go env ids = .ok (ids.filterMap (fun msgId =>
      match env.getMessage msgId with
      | .error _ => none
      | .ok msg => (buildRawEmail msgId msg).toOption)) := by
  induction ids with
  | nil => rfl
  | cons msgId rest ih =>
      have hrest := fun m hm => h m (List.mem_cons_of_mem _ hm)
      rcases hg : env.getMessage msgId with e | msg
      · simpa [fetchUnreadReceipts.go, hg] using ih hrest
      · obtain ⟨re, hre⟩ := h msgId (List.mem_cons_self _ _) msg hg
        simp [fetchUnreadReceipts.go, hg, hre, ih hrest, Except.toOption, Except.map]

/-- C10: a failure of the initial listing call aborts the whole fetch with
an error; a failure while retrieving an individual message silently skips
just that message — it is omitted from the returned batch and no error is
surfaced for it. -/
theorem c10_fetch_error_paths {E : Type} (env : GmailEnv E) :
    (∀ e, env.listUnread = .error e →
      fetchUnreadReceipts env = .error (.listFailed e)) ∧
    (∀ ids, env.listUnread = .ok ids →
      (∀ msgId, msgId ∈ ids → ∀ msg, env.getMessage msgId = .ok msg →
         ∃ re, buildRawEmail msgId msg = .ok re) →
      fetchUnreadReceipts env = .ok (ids.filterMap (fun msgId =>
        match env.getMessage msgId with
        | .error _ => none
        | .ok msg => (buildRawEmail msgId msg).toOption))) := by
  constructor
  · intro e h
    simp [fetchUnreadReceipts, h]
  · intro ids h hbuild
    rw [fetchUnreadReceipts, h]
    exact fetchGo_skips_failures env ids hbuild

/-- C10 witness: on the concrete environment whose first message fetch
fails, the batch contains only the second message. -/
theorem c10_fetch_error_paths_witness :
    fetchUnreadReceipts c10Env = .ok [⟨"b", "receipt", "hi"⟩] := by
  rw [(c10_fetch_error_paths c10Env).2 ["a", "b"] rfl ?_]
  · decide
  · intro msgId hm msg hmsg
    rcases List.mem_cons.mp hm with rfl | hm2
    · have h2 : (Except.error () : Except Unit GmailMessage) = Except.ok msg := hmsg
      exact Except.noConfusion h2
    · rcases List.mem_cons.mp hm2 with rfl | hm3
      · have h2 : (Except.ok (GmailMessage.mk [⟨"Subject", "receipt"⟩]
              [{ mimeType := "text/plain", data := some "aGk=" }]) :
            Except Unit GmailMessage) = Except.ok msg := hmsg
        injection h2 with h3
        subst h3
        exact ⟨⟨"b", "receipt", "hi"⟩, by decide⟩
      · exact absurd hm3 (List.not_mem_nil _)

/-- C4: in a batch where item `k`'s task body raises at one of its four
sub-steps, the exception is caught at the task boundary and reported, the
run completes with one outcome per item, and every other item is
processed through all of its own sub-steps unaffected. -/
theorem c4_per_item_isolation {E : Type} (env : WorkflowEnv E)
    (emails : List RawEmail) (k : Nat) (ek : RawEmail) (err : StageErr E)
    (hk : emails[k]? = some ek)
    (hfail : processEmailBody env ek = .error err) :
    (runWorkflow env emails).length = emails.length ∧
    (runWorkflow env emails)[k]? = some (.reported err) ∧
    (∀ j : Nat, j ≠ k →
      (runWorkflow env emails)[j]? = (emails[j]?).map (processEmail env)) ∧
    (∀ (j : Nat) (ej : RawEmail), emails[j]? = some ej →
      processEmailBody env ej = .ok () →
      (runWorkflow env emails)[j]? = some .acknowledged) := by
  refine ⟨List.length_map _ _, ?_, ?_, ?_⟩
  · rw [runWorkflow, List.getElem?_map, hk]
    simp [processEmail, hfail]
  · intro j _
    rw [runWorkflow, List.getElem?_map]
  · intro j ej hj hok
    rw [runWorkflow, List.getElem?_map, hj]
    simp [processEmail, hok]

/-- Peeling one delay off the front of a delay schedule. -/
theorem delaysList_succ (b : ℚ) (a k : Nat) :
    delaysList b a (k + 1) = b * 2 ^ a :: delaysList b (a + 1) k := by
  simp only [delaysList, List.range_succ_eq_map, List.map_cons, List.map_map,
    Nat.add_zero]
  congr 1
  apply List.map_congr_left
  intro i _
  have hi : a + Nat.succ i = a + 1 + i := by omega
  simp [Function.comp, hi]

/-- Sheets loop, success case: `k` retryable failures within the fuel
budget followed by a success make exactly `k` delays. -/
theorem sheetsGo_success (op : Nat → Outcome) (b : ℚ) : ∀ (k fuel a : Nat)
    (ds : List ℚ), k + 1 ≤ fuel →
    (∀ i, i < k → ∃ s, op (a + i) = .err s ∧ sheetsRetryable s = true) →
    op (a + k) = .ok →
    sheetsAppendGo op b fuel a ds =
      .success (a + k + 1) (ds.reverse ++ delaysList b a k) := by
  intro k
  induction k with
  | zero =>
      intro fuel a ds hfuel _ hok
      obtain ⟨f, rfl⟩ : ∃ f, fuel = f + 1 := ⟨fuel - 1, by omega⟩
      rw [Nat.add_zero] at hok
      simp [sheetsAppendGo, hok, delaysList]
  | succ k ih =>
      intro fuel a ds hfuel hfail hok
      obtain ⟨f, rfl⟩ : ∃ f, fuel = f + 1 := ⟨fuel - 1, by omega⟩
      obtain ⟨s, herr, hret⟩ := hfail 0 (Nat.succ_pos k)
      rw [Nat.add_zero] at herr
      have hrec := ih f (a + 1) (b * 2 ^ a :: ds) (by omega)
        (fun i hi => by
          have := hfail (i + 1) (by omega)
          simpa [Nat.add_assoc, Nat.add_comm 1 i] using this)
        (by simpa [Nat.add_assoc, Nat.add_comm 1 k] using hok)
      have hf0 : f ≠ 0 := by omega
      simp only [sheetsAppendGo, herr, hret, if_true, if_neg hf0, hrec,
        List.reverse_cons, delaysList_succ]
      congr 1
      · omega
      · simp [List.append_assoc]

/-- One-step unfolding of the sheets loop in a non-final fuel state. -/
theorem sheetsAppendGo_succ (op : Nat → Outcome) (b : ℚ) (fuel a : Nat)
    (ds : List ℚ) :
    sheetsAppendGo op b (fuel + 1) a ds =
      match op a with
      | .ok => .success (a + 1) ds.reverse
      | .err st =>
          if sheetsRetryable st then
            if fuel = 0 then .failure (a + 1) ds.reverse a st
            else sheetsAppendGo op b fuel (a + 1) (b * 2 ^ a :: ds)
          else .failure (a + 1) ds.reverse a st := rfl

/-- One-step unfolding of the slack loop in a non-final fuel state. -/
theorem slackSendGo_succ (op : Nat → Outcome) (b : ℚ) (fuel a : Nat)
    (ds : List ℚ) :
    slackSendGo op b (fuel + 1) a ds =
      match op a with
      | .ok => .success (a + 1) ds.reverse
      | .err st =>
          if slackRetryable st then
            slackSendGo op b fuel (a + 1) (b * 2 ^ a :: ds)
          else .failure (a + 1) ds.reverse a st := rfl

/-- Sheets loop, exhaustion case: with fuel `j + 1` and every attempt
failing retryably, the final attempt's error is surfaced after `j`
delays. -/
theorem sheetsGo_exhaust (op : Nat → Outcome) (b : ℚ) : ∀ (j a : Nat)
    (ds : List ℚ) (sLast : Option Nat),
    (∀ i, i ≤ j → ∃ s, op (a + i) = .err s ∧ sheetsRetryable s = true) →
    op (a + j) = .err sLast →
    sheetsAppendGo op b (j + 1) a ds =
      .failure (a + j + 1) (ds.reverse ++ delaysList b a j) (a + j) sLast := by
  intro j
  induction j with
  | zero =>
      intro a ds sLast hfail hlast
      obtain ⟨s, herr, hret⟩ := hfail 0 (Nat.le_refl 0)
      rw [Nat.add_zero] at herr hlast
      rw [herr] at hlast
      injection hlast with hs
      subst hs
      rw [sheetsAppendGo_succ, herr]
      simp [hret, delaysList]
  | succ j ih =>
      intro a ds sLast hfail hlast
      obtain ⟨s, herr, hret⟩ := hfail 0 (Nat.zero_le _)
      rw [Nat.add_zero] at herr
      have hrec := ih (a + 1) (b * 2 ^ a :: ds) sLast
        (fun i hi => by
          have := hfail (i + 1) (by omega)
          simpa [Nat.add_assoc, Nat.add_comm 1 i] using this)
        (by simpa [Nat.add_assoc, Nat.add_comm 1 j] using hlast)
      have hj0 : j + 1 ≠ 0 := Nat.succ_ne_zero j
      rw [sheetsAppendGo_succ, herr]
      simp only [hret, if_true, hj0, if_false]
      rw [hrec]
      congr 1 <;>
        first
          | omega
          | simp [List.reverse_cons, List.append_assoc, delaysList_succ]

/-- Slack loop, success case. -/
theorem slackGo_success (op : Nat → Outcome) (b : ℚ) : ∀ (k fuel a : Nat)
    (ds : List ℚ), k ≤ fuel →
    (∀ i, i < k → ∃ s, op (a + i) = .err s ∧ slackRetryable s = true) →
    op (a + k) = .ok →
    slackSendGo op b fuel a ds =
      .success (a + k + 1) (ds.reverse ++ delaysList b a k) := by
  intro k
  induction k with
  | zero =>
      intro fuel a ds _ _ hok
      rw [Nat.add_zero] at hok
      cases fuel <;> simp [slackSendGo, hok, delaysList]
  | succ k ih =>
      intro fuel a ds hfuel hfail hok
      obtain ⟨f, rfl⟩ : ∃ f, fuel = f + 1 := ⟨fuel - 1, by omega⟩
      obtain ⟨s, herr, hret⟩ := hfail 0 (Nat.succ_pos k)
      rw [Nat.add_zero] at herr
      have hrec := ih f (a + 1) (b * 2 ^ a :: ds) (by omega)
        (fun i hi => by
          have := hfail (i + 1) (by omega)
          simpa [Nat.add_assoc, Nat.add_comm 1 i] using this)
        (by simpa [Nat.add_assoc, Nat.add_comm 1 k] using hok)
      simp only [slackSendGo, herr, hret, if_true, hrec,
        List.reverse_cons, delaysList_succ]
      congr 1
      · omega
      · simp [List.append_assoc]

/-- Slack loop, exhaustion case: with fuel `j` and every attempt failing
retryably, the final attempt's error is surfaced after `j` delays. -/
theorem slackGo_exhaust (op : Nat → Outcome) (b : ℚ) : ∀ (j a : Nat)
    (ds : List ℚ) (sLast : Option Nat),
    (∀ i, i ≤ j → ∃ s, op (a + i) = .err s ∧ slackRetryable s = true) →
    op (a + j) = .err sLast →
    slackSendGo op b j a ds =
      .failure (a + j + 1) (ds.reverse ++ delaysList b a j) (a + j) sLast := by
  intro j
  induction j with
  | zero =>
      intro a ds sLast _ hlast
      rw [Nat.add_zero] at hlast
      simp [slackSendGo, hlast, delaysList]
  | succ j ih =>
      intro a ds sLast hfail hlast
      obtain ⟨s, herr, hret⟩ := hfail 0 (Nat.zero_le _)
      rw [Nat.add_zero] at herr
      have hrec := ih (a + 1) (b * 2 ^ a :: ds) sLast
        (fun i hi => by
          have := hfail (i + 1) (by omega)
          simpa [Nat.add_assoc, Nat.add_comm 1 i] using this)
        (by simpa [Nat.add_assoc, Nat.add_comm 1 j] using hlast)
      rw [slackSendGo_succ, herr]
      simp only [hret, if_true]
      rw [hrec]
      congr 1 <;>
        first
          | omega
          | simp [List.reverse_cons, List.append_assoc, delaysList_succ]

/-- C4 witness: in the concrete three-item batch the middle item fails at
the notify step; its error is reported while both other items are
acknowledged and the run completes. -/
theorem c4_per_item_isolation_witness :
    (runWorkflow c4Env c4Emails)[1]? = some (.reported (.notifyFailed ())) ∧
    (runWorkflow c4Env c4Emails)[0]? = some .acknowledged ∧
    (runWorkflow c4Env c4Emails)[2]? = some .acknowledged := by
  have h := c4_per_item_isolation c4Env c4Emails 1 ⟨"2", "B", "x"⟩
    (.notifyFailed ()) (by decide) (by decide)
  exact ⟨h.2.1, h.2.2.2 0 ⟨"1", "A", "x"⟩ (by decide) (by decide),
    h.2.2.2 2 ⟨"3", "C", "x"⟩ (by decide) (by decide)⟩

/-- C5 (amended): for each retry loop, with failures retryable per that
operation's own classifier (`status ≥ 500` for the spreadsheet append;
`429` or `[500,600)` for the notification send): `k` retryable failures
followed by a success (`k ≤ maxRetries`) succeed after exactly the `k`
backoff delays `backoff·2^0, …, backoff·2^(k-1)`, and `maxRetries + 1`
retryable failures surface the final attempt's error after `maxRetries`
delays, with no further attempt. -/
theorem c5_retry_schedule (op : Nat → Outcome) (maxRetries k : Nat) (b : ℚ)
    (sLast : Option Nat) :
    (k ≤ maxRetries →
      (∀ i, i < k → ∃ s, op i = .err s ∧ sheetsRetryable s = true) →
      op k = .ok →
      sheetsAppendRun op maxRetries b = .success (k + 1) (delaysList b 0 k)) ∧
    ((∀ i, i ≤ maxRetries → ∃ s, op i = .err s ∧ sheetsRetryable s = true) →
      op maxRetries = .err sLast →
      sheetsAppendRun op maxRetries b =
        .failure (maxRetries + 1) (delaysList b 0 maxRetries) maxRetries sLast) ∧
    (k ≤ maxRetries →
      (∀ i, i < k → ∃ s, op i = .err s ∧ slackRetryable s = true) →
      op k = .ok →
      slackSendRun op maxRetries b = .success (k + 1) (delaysList b 0 k)) ∧
    ((∀ i, i ≤ maxRetries → ∃ s, op i = .err s ∧ slackRetryable s = true) →
      op maxRetries = .err sLast →
      slackSendRun op maxRetries b =
        .failure (maxRetries + 1) (delaysList b 0 maxRetries) maxRetries sLast) := by
  refine ⟨?_, ?_, ?_, ?_⟩
  · intro hk hfail hok
    have h := sheetsGo_success op b k (maxRetries + 1) 0 [] (by omega)
      (fun i hi => by simpa using hfail i hi) (by simpa using hok)
    simpa [sheetsAppendRun] using h
  · intro hfail hlast
    have h := sheetsGo_exhaust op b maxRetries 0 [] sLast
      (fun i hi => by simpa using hfail i hi) (by simpa using hlast)
    simpa [sheetsAppendRun] using h
  · intro hk hfail hok
    have h := slackGo_success op b k maxRetries 0 [] hk
      (fun i hi => by simpa using hfail i hi) (by simpa using hok)
    simpa [slackSendRun] using h
  · intro hfail hlast
    have h := slackGo_exhaust op b maxRetries 0 [] sLast
      (fun i hi => by simpa using hfail i hi) (by simpa using hlast)
    simpa [slackSendRun] using h

/-- C5 counterexample: on the spreadsheet-append loop, with maxRetries 3
and every attempt failing with status 429, the FIRST attempt's error is
surfaced immediately with no delay — not the 4th attempt's error after 3
delays as the claim requires. -/
theorem c5_sheets_429_counterexample :
    sheetsAppendRun (fun _ => Outcome.err (some 429)) 3 (1 / 2) =
      RunResult.failure 1 [] 0 (some 429) ∧
    sheetsAppendRun (fun _ => Outcome.err (some 429)) 3 (1 / 2) ≠
      RunResult.failure 4 (delaysList (1 / 2) 0 3) 3 (some 429) := by
  constructor
  · rfl
  · intro h
    rw [show sheetsAppendRun (fun _ => Outcome.err (some 429)) 3 (1 / 2) =
        RunResult.failure 1 [] 0 (some 429) from rfl] at h
    injection h with h1 h2 h3 h4
    exact absurd h1 (by decide)

/-- C5 witness: the amended schedule theorem at concrete operations —
failures `[500, 500, ok]` with maxRetries 3 give two delays then success
on the sheets loop, and four 429 failures surface the 4th error after
three delays on the slack loop. -/
theorem c5_retry_schedule_witness :
    sheetsAppendRun (fun i => if i < 2 then Outcome.err (some 500) else .ok) 3
      (1 / 2) = .success 3 (delaysList (1 / 2) 0 2) ∧
    slackSendRun (fun _ => Outcome.err (some 429)) 3 (1 / 2) =
      .failure 4 (delaysList (1 / 2) 0 3) 3 (some 429) := by
  constructor
  · exact (c5_retry_schedule (fun i => if i < 2 then Outcome.err (some 500) else .ok)
      3 2 (1 / 2) none).1 (by omega)
      (fun i hi => ⟨some 500, by simp [hi], by decide⟩) (by decide)
  · exact (c5_retry_schedule (fun _ => Outcome.err (some 429)) 3 3 (1 / 2)
      (some 429)).2.2.2 (fun i _ => ⟨some 429, rfl, by decide⟩) rfl

/-- The code point of a padded digit character. -/
theorem digitChar_toNat (k : Nat) : (digitChar k).toNat = 48 + k % 10 := by
  obtain ⟨r, hr, hrew⟩ : ∃ r, r < 10 ∧ k % 10 = r :=
    ⟨k % 10, Nat.mod_lt _ (by norm_num), rfl⟩
  rw [digitChar, hrew]
  interval_cases r <;> decide

/-- Padded digit characters satisfy the regex class `\d`. -/
theorem digitChar_isDigit (k : Nat) : (digitChar k).isDigit = true := by
  obtain ⟨r, hr, hrew⟩ : ∃ r, r < 10 ∧ k % 10 = r :=
    ⟨k % 10, Nat.mod_lt _ (by norm_num), rfl⟩
  rw [digitChar, hrew]
  interval_cases r <;> decide

/-- Padded digit characters are not the slash separator. -/
theorem digitChar_ne_slash (k : Nat) : ¬ digitChar k = '/' := by
  obtain ⟨r, hr, hrew⟩ : ∃ r, r < 10 ∧ k % 10 = r :=
    ⟨k % 10, Nat.mod_lt _ (by norm_num), rfl⟩
  rw [digitChar, hrew]
  interval_cases r <;> decide

/-- Reading back a four-digit zero-padded numeral. -/
theorem digitsToNat_pad4 (y : Nat) (hy : y < 10000) :
    digitsToNat (pad4 y) = y := by
  simp only [digitsToNat, pad4, List.foldl, digitChar_toNat]
  omega

/-- Reading back a two-digit zero-padded numeral. -/
theorem digitsToNat_pad2 (m : Nat) (hm : m < 100) :
    digitsToNat (pad2 m) = m := by
  simp only [digitsToNat, pad2, List.foldl, digitChar_toNat]
  omega

/-- `\d{4}` consumes exactly a four-digit padded numeral. -/
theorem grabDigits_pad4 (y : Nat) (rest : List Char) :
    grabDigits 4 (pad4 y ++ rest) = some (pad4 y, rest) := by
  simp [pad4, grabDigits, digitChar_isDigit]

/-- `\d{2}` consumes exactly a two-digit padded numeral. -/
theorem grabDigits_pad2 (m : Nat) (rest : List Char) :
    grabDigits 2 (pad2 m ++ rest) = some (pad2 m, rest) := by
  simp [pad2, grabDigits, digitChar_isDigit]

/-- The month/day field matcher on a two-digit numeral and its separator. -/
theorem matchFieldSep_pad2 (m : Nat) (rest : List Char) :
    matchFieldSep '-' (pad2 m ++ '-' :: rest) = some (pad2 m, rest) := by
  simp [matchFieldSep, grabDigits_pad2, expectChar]

/-- The final field matcher on a two-digit numeral ending the string. -/
theorem matchDigitsEnd_pad2 (d : Nat) :
    matchDigitsEnd (pad2 d) = some (pad2 d) := by
  have h := grabDigits_pad2 d []
  rw [List.append_nil] at h
  simp [matchDigitsEnd, h]

/-- `strptime("%Y-%m-%d")` on a `YYYY-MM-DD`-shaped string: the numeric
components are recovered exactly, subject to calendar validation. -/
theorem strptimeYmd_pad (y m d : Nat) (hy : y < 10000) (hm : m < 100)
    (hd : d < 100) :
    strptimeYmd (pad4 y ++ '-' :: pad2 m ++ '-' :: pad2 d) =
      if validDate y m d then some (y, m, d) else none := by
  simp [strptimeYmd, grabDigits_pad4, expectChar, matchFieldSep_pad2,
    matchDigitsEnd_pad2, digitsToNat_pad4 y hy, digitsToNat_pad2 m hm,
    digitsToNat_pad2 d hd]

/-- `strptime("%m/%d/%Y")` fails on a `YYYY-MM-DD`-shaped string. -/
theorem strptimeMdY_pad (y m d : Nat) :
    strptimeMdY (pad4 y ++ '-' :: pad2 m ++ '-' :: pad2 d) = none := by
  simp [strptimeMdY, matchFieldSep, pad4, grabDigits, expectChar,
    digitChar_isDigit, digitChar_ne_slash]

/-- `strptime("%m/%d/%y")` fails on a `YYYY-MM-DD`-shaped string. -/
theorem strptimeMdy_pad (y m d : Nat) :
    strptimeMdy (pad4 y ++ '-' :: pad2 m ++ '-' :: pad2 d) = none := by
  simp [strptimeMdy, matchFieldSep, pad4, grabDigits, expectChar,
    digitChar_isDigit, digitChar_ne_slash]

/-- C7: date normalization is the identity on every string already in
`YYYY-MM-DD` form (round-trip), and returns the original string unchanged
(rather than failing) on every string that parses under none of the
accepted formats. -/
theorem c7_normalize_roundtrip :
    (∀ y m d : Nat, y < 10000 → m < 100 → d < 100 →
      normalizeDateStr (String.mk (pad4 y ++ '-' :: pad2 m ++ '-' :: pad2 d)) =
        String.mk (pad4 y ++ '-' :: pad2 m ++ '-' :: pad2 d)) ∧
    (∀ s : String, strptimeDate s = none → normalizeDateStr s = s) := by
  constructor
  · intro y m d hy hm hd
    rw [normalizeDateStr, strptimeDate]
    rw [show (String.mk (pad4 y ++ '-' :: pad2 m ++ '-' :: pad2 d)).data =
      pad4 y ++ '-' :: pad2 m ++ '-' :: pad2 d from rfl]
    rw [strptimeYmd_pad y m d hy hm hd]
    by_cases hv : validDate y m d = true
    · rw [if_pos hv]
      rfl
    · rw [if_neg hv, strptimeMdY_pad, strptimeMdy_pad]
  · intro s h
    simp [normalizeDateStr, h]

/-- C7 witness: the round-trip on the concrete date of the spec's
end-to-end example, and pass-through on an unparseable string. -/
theorem c7_normalize_roundtrip_witness :
    normalizeDateStr "2025-07-06" = "2025-07-06" ∧
    normalizeDateStr "not-a-date" = "not-a-date" := by
  constructor
  · exact c7_normalize_roundtrip.1 2025 7 6 (by norm_num) (by norm_num)
      (by norm_num)
  · exact c7_normalize_roundtrip.2 "not-a-date" (by decide)
